import Mathlib

/-!
Verification development for the Document_Chatbot repository.

Strings are embedded as `List Char`.  The Python functions of
`app/qa_engine.py` and `app/file_loader.py` are translated into
executable Lean definitions:

* the three `re.sub` calls of `sanitize_text` are embedded by a
  left-to-right scanner (`scanAux`) together with one matcher per
  regular expression; each matcher implements Python's backtracking
  preference order (greedy quantifiers try the longest repetition
  first, optional groups try the "present" alternative first, `\b`
  is a word/non-word boundary test on the neighbouring characters);
* the spaCy pipeline is an external statistical model, so the entity
  recogniser is a parameter `ner : List Char → List Ent` producing
  the `doc.ents` list for a given input text; the entity loop itself
  (`str.replace` on every qualifying entity) is embedded exactly;
* `RecursiveCharacterTextSplitter`, `FAISS`, pandas and the
  filesystem are third-party capabilities and appear as parameters;
  `build_qa_engine` returns the chunk list handed to
  `FAISS.from_texts`, `save_vectorstore` returns the directory it
  writes to, and `load_vectorstore` takes `isdir`/`load_local`
  functions;
* `get_raw_text` dispatches on the (lower-cased) filename suffix over
  a `FileData` tree; parse failures of the underlying readers
  (`PdfReader`, `Document`, `read_excel`, `ZipFile`) are embedded as
  `Except.error`.
-/

/-! ## Character classes and word boundaries (Python `re`, ASCII range) -/

def isWordChar (c : Char) : Bool := c.isAlphanum || c = '_'

def wordOpt : Option Char → Bool
  | none => false
  | some c => isWordChar c

/-- `\b` between a previous and a next character (`none` = string edge). -/
def isBoundary (prev next : Option Char) : Bool := wordOpt prev != wordOpt next

/-- `[A-Za-z0-9._%+-]` (local part of the e-mail pattern). -/
def isLocalChar (c : Char) : Bool :=
  c.isAlphanum || c = '.' || c = '_' || c = '%' || c = '+' || c = '-'

/-- `[A-Za-z0-9.-]` (domain stem of the e-mail / domain patterns). -/
def isDomChar (c : Char) : Bool := c.isAlphanum || c = '.' || c = '-'

/-- `[A-Z|a-z]` (top-level-domain class; note the literal `|`). -/
def isTldChar (c : Char) : Bool := c.isAlpha || c = '|'

/-! ## Matchers for the three `re.sub` patterns of `sanitize_text` -/

/-- Match `[A-Za-z0-9.-]+\.[A-Z|a-z]{2,}\b` against a prefix of `r`,
returning the matched length.  Candidate stem lengths `k` are tried
longest first, then TLD lengths `t` longest first (Python greedy
backtracking). -/
def domTail (r : List Char) : Option Nat :=
  let R := (r.takeWhile isDomChar).length
  (List.range R).reverse.findSome? (fun k =>
    if 1 ≤ k ∧ r[k]? = some '.' then
      let T := ((r.drop (k + 1)).takeWhile isTldChar).length
      (List.range (T + 1)).reverse.findSome? (fun t =>
        if 2 ≤ t ∧ isBoundary r[k + t]? r[k + 1 + t]? then some (k + 1 + t)
        else none)
    else none)

/-- `\b[A-Za-z0-9._%+-]+@[A-Za-z0-9.-]+\.[A-Z|a-z]{2,}\b` at the head
of `s`; `prev` is the character before `s` in the scanned string.
The local-part run is maximal (`@` is outside its class, so no
shorter run can be followed by `@`). -/
def emailMatch (prev : Option Char) (s : List Char) : Option Nat :=
  match s with
  | [] => none
  | c :: _ =>
    if isBoundary prev (some c) then
      let L := (s.takeWhile isLocalChar).length
      if L = 0 then none
      else
        match s[L]? with
        | some '@' => (domTail (s.drop (L + 1))).map (fun m => L + 1 + m)
        | _ => none
    else none

/-- `\b(?:https?://)?(?:www\.)?[A-Za-z0-9.-]+\.[A-Z|a-z]{2,}\b` at the
head of `s`; optional groups try the "present" alternative first. -/
def domainMatch (prev : Option Char) (s : List Char) : Option Nat :=
  match s with
  | [] => none
  | c :: _ =>
    if isBoundary prev (some c) then
      let protos : List Nat :=
        if List.isPrefixOf ['h','t','t','p','s',':','/','/'] s then [8, 0]
        else if List.isPrefixOf ['h','t','t','p',':','/','/'] s then [7, 0]
        else [0]
      protos.findSome? (fun p =>
        let s1 := s.drop p
        let wws : List Nat :=
          if List.isPrefixOf ['w','w','w','.'] s1 then [4, 0] else [0]
        wws.findSome? (fun w => (domTail (s1.drop w)).map (fun m => p + w + m)))
    else none

/-- `\b\d{3,4}[- ]?\d{6,10}\b` at the head of `s`. -/
def phoneMatch (prev : Option Char) (s : List Char) : Option Nat :=
  match s with
  | [] => none
  | c :: _ =>
    if isBoundary prev (some c) then
      [4, 3].findSome? (fun p =>
        if (s.take p).length = p ∧ (s.take p).all Char.isDigit then
          let seps : List Nat :=
            match s[p]? with
            | some '-' => [1, 0]
            | some ' ' => [1, 0]
            | _ => [0]
          seps.findSome? (fun sep =>
            let body := s.drop (p + sep)
            let E := (body.takeWhile Char.isDigit).length
            [10, 9, 8, 7, 6].findSome? (fun b =>
              if b ≤ E ∧ isBoundary body[b - 1]? body[b]? then
                some (p + sep + b)
              else none))
        else none)
    else none

/-- One left-to-right `re.sub` pass: at each position try the matcher;
on a match of length `d + 1` emit the replacement and skip the matched
span (`re.sub` does not rescan replaced text), otherwise copy one
character.  `prev` tracks the preceding character of the original
string for `\b` tests. -/
def scanAux (m : Option Char → List Char → Option Nat) (rep : List Char) :
    Nat → Option Char → List Char → List Char
  | _, _, [] => []
  | Nat.succ k, _, c :: rest => scanAux m rep k (some c) rest
  | 0, prev, c :: rest =>
    match m prev (c :: rest) with
    | some (Nat.succ d) => rep ++ scanAux m rep d (some c) rest
    | _ => c :: scanAux m rep 0 (some c) rest

def reSub (m : Option Char → List Char → Option Nat) (rep s : List Char) :
    List Char :=
  scanAux m rep 0 none s

/-- `re.sub(r'\b[A-Za-z0-9._%+-]+@[A-Za-z0-9.-]+\.[A-Z|a-z]{2,}\b', "[EMAIL]", text)` -/
def emailSub (s : List Char) : List Char :=
  reSub emailMatch ['[','E','M','A','I','L',']'] s

/-- `re.sub(r'\b(?:https?://)?(?:www\.)?[A-Za-z0-9.-]+\.[A-Z|a-z]{2,}\b', "[DOMAIN]", text)` -/
def domainSub (s : List Char) : List Char :=
  reSub domainMatch ['[','D','O','M','A','I','N',']'] s

/-- `re.sub(r'\b\d{3,4}[- ]?\d{6,10}\b', "[PHONE]", text)` -/
def phoneSub (s : List Char) : List Char :=
  reSub phoneMatch ['[','P','H','O','N','E',']'] s

/-! ## Python `str.replace` / `str.split` on substring occurrences -/

/-- Worker for `str.replace`: `skip > 0` means we are inside an already
replaced span. -/
def replAux (pat rep : List Char) : Nat → List Char → List Char
  | _, [] => []
  | Nat.succ k, _ :: rest => replAux pat rep k rest
  | 0, c :: rest =>
    if pat.isPrefixOf (c :: rest) then rep ++ replAux pat rep (pat.length - 1) rest
    else c :: replAux pat rep 0 rest

/-- Python `s.replace(pat, rep)`: every non-overlapping occurrence,
left to right.  For the empty pattern Python inserts `rep` at every
gap. -/
def pyReplace (s pat rep : List Char) : List Char :=
  if pat = [] then rep ++ (s.map (fun c => c :: rep)).flatten
  else replAux pat rep 0 s

/-- Worker for `str.split` on a substring pattern. -/
def splitAux (pat : List Char) : Nat → List Char → List (List Char)
  | _, [] => [[]]
  | Nat.succ k, _ :: rest => splitAux pat k rest
  | 0, c :: rest =>
    if pat.isPrefixOf (c :: rest) then [] :: splitAux pat (pat.length - 1) rest
    else (splitAux pat 0 rest).modifyHead (c :: ·)

/-- Python `s.split(pat)` for a non-empty `pat`: the segments of `s`
between consecutive non-overlapping occurrences of `pat`. -/
def pySplit (s pat : List Char) : List (List Char) := splitAux pat 0 s

/-! ## The entity pass of `sanitize_text` -/

/-- One detected entity span of `doc.ents`: its literal text and its
label. -/
structure Ent where
  text : List Char
  label : List Char

/-- `["ORG", "PERSON", "GPE", "LOC"]` -/
def entLabels : List (List Char) :=
  [['O','R','G'], ['P','E','R','S','O','N'], ['G','P','E'], ['L','O','C']]

/-- `f"[{ent.label_}]"` -/
def placeholder (lbl : List Char) : List Char := ('[' :: lbl) ++ [']']

/-- Loop body of
`for ent in doc.ents: if ent.label_ in [...]: sanitized_text = sanitized_text.replace(ent.text, f"[{ent.label_}]")`. -/
def entityStep (t : List Char) (e : Ent) : List Char :=
  if e.label ∈ entLabels then pyReplace t e.text (placeholder e.label) else t

/-- The whole entity loop over `doc.ents`. -/
def entityPass (ents : List Ent) (t : List Char) : List Char :=
  ents.foldl entityStep t

/-- `sanitize_text` of `app/qa_engine.py` (lines 25-53): the three
pattern substitutions in source order, then the entity loop over the
entities that the NER model detects on the pattern-sanitized text.
The spaCy model (and its on-demand download) is abstracted into the
parameter `ner`. -/
def sanitize_text (ner : List Char → List Ent) (text : List Char) : List Char :=
  let t1 := emailSub text
  let t2 := domainSub t1
  let t3 := phoneSub t2
  entityPass (ner t3) t3

/-! ## Python `str.strip` -/

def pyIsSpace (c : Char) : Bool :=
  c = ' ' || c = '\t' || c = '\n' || c = '\r' || c = '\x0B' || c = '\x0C'

/-- Python `s.strip()` (ASCII whitespace). -/
def pyStrip (s : List Char) : List Char :=
  ((s.dropWhile pyIsSpace).reverse.dropWhile pyIsSpace).reverse

/-! ## `build_qa_engine` (fresh-index path of `app/qa_engine.py`, lines 62-101) -/

inductive BuildError where
  /-- `ValueError("Cannot build vectorstore — no raw_text provided.")` -/
  | noRawText : BuildError
  /-- `ValueError("Sanitized text is empty — check file decoding or sanitization rules.")` -/
  | sanitizedEmpty : BuildError
deriving DecidableEq

/-- `build_qa_engine`: if a vectorstore object is supplied it is used
as is (`Sum.inr`); otherwise the raw text is validated, sanitized,
split by the injected `splitter` and the resulting chunk list is what
`FAISS.from_texts` embeds (`Sum.inl`).  The retriever/LLM/prompt
construction below line 104 has no bearing on the indexed content and
is omitted. -/
def build_qa_engine {α : Type} (ner : List Char → List Ent)
    (splitter : List Char → List (List Char)) (raw : List Char)
    (loadObj : Option α) : Except BuildError (List (List Char) ⊕ α) :=
  match loadObj with
  | some v => Except.ok (Sum.inr v)
  | none =>
    if raw = [] ∨ pyStrip raw = [] then Except.error BuildError.noRawText
    else if pyStrip (sanitize_text ner raw) = [] then
      Except.error BuildError.sanitizedEmpty
    else Except.ok (Sum.inl (splitter (sanitize_text ner raw)))

/-! ## `save_vectorstore` / `load_vectorstore` (lines 145-165) -/

/-- `os.path.join` for one component (POSIX). -/
def pathJoin (a b : List Char) : List Char :=
  if b.head? = some '/' then b
  else if a = [] then b
  else if a.getLast? = some '/' then a ++ b
  else a ++ '/' :: b

/-- `cache_name or "default"` (Python `or`: `None` and `""` are falsy). -/
def orDefaultName : Option (List Char) → List Char
  | none => ['d','e','f','a','u','l','t']
  | some s => if s = [] then ['d','e','f','a','u','l','t'] else s

/-- `save_vectorstore`: the filesystem write is external, so the
embedding returns the target directory the FAISS index is saved
under. -/
def save_vectorstore (persist_dir : List Char) (cache_name : Option (List Char)) :
    List Char :=
  pathJoin persist_dir (orDefaultName cache_name)

/-- `load_vectorstore`: `isdir` and `loadLocal` abstract
`os.path.isdir` and `FAISS.load_local`; a missing directory yields
`Except.ok none` (the `return None` sentinel), a corrupt cache is an
`Except.error` raised by `loadLocal`. -/
def load_vectorstore {α β : Type} (isdir : List Char → Bool)
    (loadLocal : List Char → Except β α) (persist_dir : List Char)
    (cache_name : Option (List Char)) : Except β (Option α) :=
  let target := pathJoin persist_dir (orDefaultName cache_name)
  if isdir target then (loadLocal target).map some else Except.ok none

/-! ## `app/file_loader.py` -/

/-- A parsed spreadsheet as `pd.read_excel` delivers it: header names
and, per row, the rendered `f"{row[col]}"` cell strings in header
order. -/
structure DataFrame where
  columns : List (List Char)
  rows : List (List (List Char))

def natToChars (n : Nat) : List Char := Nat.toDigits 10 n

/-- `f"Row {i+1}: "` for the 0-based `iterrows` index `i`. -/
def rowPrefix (i : Nat) : List Char :=
  ['R','o','w',' '] ++ natToChars (i + 1) ++ [':',' ']

/-- `extract_text_from_excel` (lines 26-34, `return_df=False` path):
`"Row {i+1}: "` plus the `". "`-joined `f"{col}: {row[col]}"` cells,
one line per row. -/
def extract_text_from_excel (df : DataFrame) : List Char :=
  (df.rows.enum.map (fun p =>
    rowPrefix p.1 ++
      List.intercalate ['.',' ']
        (List.zipWith (fun c v => c ++ [':',' '] ++ v) df.columns p.2) ++
      ['\n'])).flatten

/-- The spreadsheet branch of `get_raw_text` (lines 66-71): the
`" | "`-joined cells, one line per row, with no row prefix. -/
def excelLinesPipe (df : DataFrame) : List Char :=
  (df.rows.map (fun r =>
    List.intercalate [' ','|',' ']
      (List.zipWith (fun c v => c ++ [':',' '] ++ v) df.columns r) ++
      ['\n'])).flatten

/-! `FileData` is the parsed content behind the uploaded bytes;
`corrupt` stands for bytes every format reader raises on. -/

mutual
inductive FileData where
  | pdf : List (Option (List Char)) → FileData
  | docx : List (List Char) → FileData
  | excel : DataFrame → FileData
  | zip : Entries → FileData
  | corrupt : FileData
inductive Entries where
  | nil : Entries
  | cons : List Char → FileData → Entries → Entries
end

inductive FileKind where
  | pdf | docx | excel | zip | other
deriving DecidableEq

/-- The suffix dispatch of `get_raw_text` on `filename.lower()`, in
source order. -/
def kindOf (filename : List Char) : FileKind :=
  let n := filename.map Char.toLower
  if List.isSuffixOf ['.','p','d','f'] n then FileKind.pdf
  else if List.isSuffixOf ['.','d','o','c','x'] n then FileKind.docx
  else if List.isSuffixOf ['.','x','l','s','x'] n ||
          List.isSuffixOf ['.','x','l','s'] n then FileKind.excel
  else if List.isSuffixOf ['.','z','i','p'] n then FileKind.zip
  else FileKind.other

/-! `get_raw_text(file_bytes, filename)` (lines 49-81) together with
its zip loop: per-page `page.extract_text() or ""` for PDFs,
`para.text + "\n"` per paragraph for DOCX, the `" | "` row lines for
spreadsheets, the recursive entry loop for zips, and `""` for any
other extension.  A reader applied to bytes of the wrong shape
raises, which is `Except.error ()`. -/

mutual
def get_raw_text (f : FileData) (filename : List Char) : Except Unit (List Char) :=
  match kindOf filename, f with
  | FileKind.pdf, FileData.pdf pages =>
    Except.ok (pages.map (fun p => p.getD [])).flatten
  | FileKind.docx, FileData.docx paras =>
    Except.ok (paras.map (fun p => p ++ ['\n'])).flatten
  | FileKind.excel, FileData.excel df => Except.ok (excelLinesPipe df)
  | FileKind.zip, FileData.zip es => zipConcat es
  | FileKind.other, _ => Except.ok []
  | _, _ => Except.error ()
def zipConcat : Entries → Except Unit (List Char)
  | Entries.nil => Except.ok []
  | Entries.cons n fd rest => do
    let t ← get_raw_text fd n
    let r ← zipConcat rest
    pure (t ++ r)
end

/-- The zip entries as a plain list, in archive listing order. -/
def entryList : Entries → List (List Char × FileData)
  | Entries.nil => []
  | Entries.cons n fd rest => (n, fd) :: entryList rest

/-- A zip archive nested inside a zip archive (recursion depth 2),
used to exercise the recursive dispatch concretely. -/
def demoArchive : Entries :=
  Entries.cons ['b','.','z','i','p']
    (FileData.zip
      (Entries.cons ['c','.','d','o','c','x'] (FileData.docx [['h','i']]) Entries.nil))
    (Entries.cons ['d','.','d','o','c','x'] (FileData.docx [['y','o']]) Entries.nil)

/-- A zip archive whose first entry is a well-formed docx and whose
second entry has a `.pdf` name over unparsable bytes. -/
def badArchive : Entries :=
  Entries.cons ['y','.','d','o','c','x'] (FileData.docx [['o','k']])
    (Entries.cons ['x','.','p','d','f'] FileData.corrupt Entries.nil)

/-! ## Helper lemmas -/

theorem splitAux_ne_nil (pat : List Char) : ∀ (k : Nat) (s : List Char), splitAux pat k s ≠ [] := by
  intro k s
  induction s generalizing k with
  | nil => simp [splitAux]
  | cons c rest ih =>
    cases k with
    | succ k => simpa [splitAux] using ih k
    | zero =>
      by_cases h : pat.isPrefixOf (c :: rest)
      · simp [splitAux, h]
      · simp only [splitAux, h, if_neg, Bool.false_eq_true, not_false_iff]
        rcases hL : splitAux pat 0 rest with _ | ⟨hd, tl⟩
        · exact absurd hL (ih 0)
        · simp [List.modifyHead]

theorem replAux_eq_intercalate (pat rep : List Char) :
    ∀ (s : List Char) (k : Nat),
      replAux pat rep k s = List.intercalate rep (splitAux pat k s) := by
  intro s
  induction s with
  | nil => intro k; simp [replAux, splitAux, List.intercalate, List.intersperse]
  | cons c rest ih =>
    intro k
    cases k with
    | succ k => simp [replAux, splitAux, ih]
    | zero =>
      by_cases h : pat.isPrefixOf (c :: rest)
      · simp only [replAux, splitAux, h, if_pos]
        rw [ih]
        rcases hL : splitAux pat (pat.length - 1) rest with _ | ⟨hd, tl⟩
        · exact absurd hL (splitAux_ne_nil pat _ rest)
        · simp [List.intercalate, List.intersperse]
      · simp only [replAux, splitAux, h, if_neg, Bool.false_eq_true, not_false_iff]
        rw [ih]
        rcases hL : splitAux pat 0 rest with _ | ⟨hd, tl⟩
        · exact absurd hL (splitAux_ne_nil pat 0 rest)
        · cases tl with
          | nil => simp [List.intercalate, List.intersperse, List.modifyHead]
          | cons t ts => simp [List.intercalate, List.intersperse, List.modifyHead]

theorem get_raw_text_zip (es : Entries) (name : List Char)
    (h : kindOf name = FileKind.zip) :
    get_raw_text (FileData.zip es) name = zipConcat es := by
  unfold get_raw_text
  rw [h]

theorem zipConcat_eq_mapM :
    ∀ (es : Entries),
      zipConcat es =
        (List.mapM (fun p => get_raw_text p.2 p.1) (entryList es)).map List.flatten
  | Entries.nil => by
    simp only [zipConcat, entryList, List.mapM_nil]
    rfl
  | Entries.cons n fd rest => by
    have ih := zipConcat_eq_mapM rest
    simp only [zipConcat, entryList, List.mapM_cons]
    cases hg : get_raw_text fd n with
    | error e => simp [hg, Except.map, Bind.bind, Except.bind]
    | ok t =>
      cases hm : List.mapM (fun p => get_raw_text p.2 p.1) (entryList rest) with
      | error e =>
        rw [ih, hm]
        simp [hg, Except.map, Bind.bind, Except.bind]
      | ok xs =>
        rw [ih, hm]
        simp [hg, Except.map, Bind.bind, Except.bind, Pure.pure, Except.pure]

/-! ## Claim theorems -/

/-- C1: on the fresh-index path of `build_qa_engine` (no preloaded
vectorstore), every chunk that is handed to the embedding/index step
is a contiguous substring of `sanitize_text` applied to the raw text:
the sanitization pass runs before any content is embedded.  The
injected splitter is assumed to return substrings of its input, which
is the chunker contract of the spec. -/
theorem sanitize_before_embedding {α : Type} (ner : List Char → List Ent)
    (splitter : List Char → List (List Char)) (raw : List Char)
    (chunks : List (List Char))
    (hs : ∀ t c, c ∈ splitter t → c <:+: t)
    (h : build_qa_engine (α := α) ner splitter raw none = Except.ok (Sum.inl chunks)) :
    ∀ c ∈ chunks, c <:+: sanitize_text ner raw := by
  intro c hc
  unfold build_qa_engine at h
  by_cases h1 : raw = [] ∨ pyStrip raw = []
  · rw [if_pos h1] at h
    exact Except.noConfusion h
  · rw [if_neg h1] at h
    by_cases h2 : pyStrip (sanitize_text ner raw) = []
    · rw [if_pos h2] at h
      exact Except.noConfusion h
    · rw [if_neg h2] at h
      injection h with h3
      injection h3 with h4
      subst h4
      exact hs _ c hc

theorem sanitize_before_embedding_witness :
    ['h','i'] <:+: sanitize_text (fun _ => []) ['h','i'] := by
  refine sanitize_before_embedding (α := Unit) (fun _ => []) (fun t => [t])
    ['h','i'] [['h','i']] ?_ ?_ ['h','i'] ?_
  · intro t c hc
    simp only [List.mem_singleton] at hc
    subst hc
    exact List.infix_rfl
  · rfl
  · simp

/-- C2: the spreadsheet extraction path that is actually used on
uploaded bytes (`get_raw_text`, which `app/main.py` calls) joins the
`f"{col}: {row[col]}"` cells with `" | "` and emits no `Row <i>: `
prefix, while the repository's `extract_text_from_excel` emits the
`Row <i>: `-prefixed, `". "`-joined line the spec declares as the
observable contract.  Evaluated at a one-row, one-column sheet the
two outputs differ. -/
theorem excel_format_divergence :
    get_raw_text (FileData.excel ⟨[['A']], [[['1']]]⟩) ['r','.','x','l','s','x'] =
      Except.ok ['A',':',' ','1','\n']
  ∧ extract_text_from_excel ⟨[['A']], [[['1']]]⟩ =
      ['R','o','w',' ','1',':',' ','A',':',' ','1','\n']
  ∧ (['A',':',' ','1','\n'] : List Char) ≠
      ['R','o','w',' ','1',':',' ','A',':',' ','1','\n'] :=
  ⟨rfl, rfl, by decide⟩

/-- C3: on a filename of zip kind, `get_raw_text` recursively
re-dispatches every archive entry on the entry's own name, in the
archive's listing order, and the result is the concatenation
(`List.flatten`) of the per-entry extractions with no separator in
between; an error in any entry propagates (`mapM` over `Except`). -/
theorem zip_recursive_concat (name : List Char) (es : Entries)
    (h : kindOf name = FileKind.zip) :
    get_raw_text (FileData.zip es) name =
      (List.mapM (fun p => get_raw_text p.2 p.1) (entryList es)).map List.flatten :=
  (get_raw_text_zip es name h).trans (zipConcat_eq_mapM es)

theorem zip_recursive_concat_witness :
    get_raw_text (FileData.zip demoArchive) ['a','.','z','i','p'] =
      (List.mapM (fun p => get_raw_text p.2 p.1) (entryList demoArchive)).map List.flatten
  ∧ get_raw_text (FileData.zip demoArchive) ['a','.','z','i','p'] =
      Except.ok ['h','i','\n','y','o','\n'] :=
  ⟨zip_recursive_concat ['a','.','z','i','p'] demoArchive rfl, rfl⟩

/-- C4: in the entity pass, a detected span whose label is one of
ORG/PERSON/GPE/LOC is replaced at every literal occurrence: the loop
body equals splitting the current text on all non-overlapping
occurrences of the span's text and re-joining with `[<LABEL>]`
(Python `str.replace` semantics); a span with any other label leaves
the text unchanged; the pass processes `doc.ents` in order. -/
theorem entity_replace_all (ents : List Ent) (t : List Char) (e : Ent)
    (hne : e.text ≠ []) :
    (e.label ∈ entLabels →
       entityStep t e = List.intercalate (placeholder e.label) (pySplit t e.text))
  ∧ (e.label ∉ entLabels → entityStep t e = t)
  ∧ entityPass ents t = List.foldl entityStep t ents := by
  refine ⟨fun h => ?_, fun h => ?_, rfl⟩
  · simp [entityStep, h, pyReplace, hne, pySplit, replAux_eq_intercalate]
  · simp [entityStep, h]

theorem entity_replace_all_witness :
    entityStep ['A','c','m','e',' ','&',' ','A','c','m','e']
        ⟨['A','c','m','e'], ['O','R','G']⟩ =
      ['[','O','R','G',']',' ','&',' ','[','O','R','G',']'] := by
  have h := (entity_replace_all [] ['A','c','m','e',' ','&',' ','A','c','m','e']
    ⟨['A','c','m','e'], ['O','R','G']⟩ (by decide)).1 (by decide)
  rw [h]
  rfl

/-- C5: `sanitize_text` applies the e-mail substitution, then the
domain substitution to its result, then the phone substitution to
that result, and only then runs the entity pass on the
pattern-sanitized text.  The concrete conjuncts show the order is
observable: the e-mail pass consumes `a@b.com` before the domain
pass can see `b.com`, whereas the domain substitution alone would
produce `a@[DOMAIN]`. -/
theorem pattern_order (ner : List Char → List Ent) (x : List Char) :
    sanitize_text ner x =
      entityPass (ner (phoneSub (domainSub (emailSub x))))
        (phoneSub (domainSub (emailSub x)))
  ∧ sanitize_text (fun _ => []) ['a','@','b','.','c','o','m'] =
      ['[','E','M','A','I','L',']']
  ∧ domainSub ['a','@','b','.','c','o','m'] =
      ['a','@','[','D','O','M','A','I','N',']']
  ∧ phoneSub ['1','2','3',' ','4','5','6','7','8','9','0'] =
      ['[','P','H','O','N','E',']'] :=
  ⟨rfl, rfl, rfl, rfl⟩

/-- C7: without a preloaded vectorstore, `build_qa_engine` raises a
`ValueError` (embedded as `Except.error`) whenever the raw text
strips to nothing, or strips to something but its sanitized form
strips to nothing; it never reaches the chunking/indexing step. -/
theorem build_rejects_empty {α : Type} (ner : List Char → List Ent)
    (splitter : List Char → List (List Char)) (raw : List Char)
    (h : pyStrip raw = [] ∨
         (pyStrip raw ≠ [] ∧ pyStrip (sanitize_text ner raw) = [])) :
    ∃ e, build_qa_engine (α := α) ner splitter raw none = Except.error e := by
  unfold build_qa_engine
  rcases h with h | ⟨h1, h2⟩
  · exact ⟨BuildError.noRawText, by rw [if_pos (Or.inr h)]⟩
  · have hn : ¬(raw = [] ∨ pyStrip raw = []) := by
      rintro (rfl | hh)
      · exact h1 rfl
      · exact h1 hh
    exact ⟨BuildError.sanitizedEmpty, by rw [if_neg hn, if_pos h2]⟩

theorem build_rejects_empty_witness :
    ∃ e, build_qa_engine (α := Unit) (fun _ => []) (fun t => [t]) [' '] none =
      Except.error e :=
  build_rejects_empty (fun _ => []) (fun t => [t]) [' '] (Or.inl (by decide))

/-- C8: when the resolved cache directory does not exist,
`load_vectorstore` returns the `None` sentinel (`Except.ok none`)
without invoking `FAISS.load_local`, so it cannot raise; a
found-but-corrupt cache would instead surface as the `Except.error`
of `loadLocal`. -/
theorem load_missing_returns_none {α β : Type} (isdir : List Char → Bool)
    (loadLocal : List Char → Except β α) (p : List Char)
    (c : Option (List Char))
    (h : isdir (pathJoin p (orDefaultName c)) = false) :
    load_vectorstore isdir loadLocal p c = Except.ok none := by
  simp [load_vectorstore, h]

theorem load_missing_returns_none_witness :
    load_vectorstore (fun _ => false) (fun _ => (Except.ok 0 : Except Unit Nat))
      ['s'] none = Except.ok none :=
  load_missing_returns_none _ _ ['s'] none rfl

/-- C9: if extracting one zip entry raises, `get_raw_text` on the
archive propagates the error: there is no per-entry guarding, so the
remaining sibling entries are never delivered. -/
theorem zip_error_propagates (name : List Char) (n : List Char) (fd : FileData) :
    ∀ (es : Entries),
      kindOf name = FileKind.zip → (n, fd) ∈ entryList es →
      get_raw_text fd n = Except.error () →
      get_raw_text (FileData.zip es) name = Except.error ()
  | Entries.nil => by
    intro _ hm _
    simp [entryList] at hm
  | Entries.cons n2 fd2 rest => by
    intro hk hm he
    rw [get_raw_text_zip _ name hk]
    simp only [entryList, List.mem_cons] at hm
    rcases hm with heq | hm
    · injection heq with h1 h2
      subst h1
      subst h2
      simp [zipConcat, he, Bind.bind, Except.bind]
    · cases hg : get_raw_text fd2 n2 with
      | error e => simp [zipConcat, hg, Bind.bind, Except.bind]
      | ok t =>
        have ih := zip_error_propagates name n fd rest hk hm he
        rw [get_raw_text_zip rest name hk] at ih
        simp [zipConcat, hg, ih, Bind.bind, Except.bind]

theorem zip_error_propagates_witness :
    get_raw_text (FileData.zip badArchive) ['a','r','c','h','.','z','i','p'] =
      Except.error () :=
  zip_error_propagates ['a','r','c','h','.','z','i','p'] ['x','.','p','d','f']
    FileData.corrupt badArchive rfl (by simp [badArchive, entryList]) rfl

/-- C10: `save_vectorstore` and `load_vectorstore` resolve an omitted
cache name to the same `"default"`, so a persist with no cache name
followed by a reload with no cache name targets the same directory
`persist_dir/"default"`. -/
theorem cache_name_default_agree {α β : Type} (p : List Char)
    (isdir : List Char → Bool) (loadLocal : List Char → Except β α) :
    save_vectorstore p none = pathJoin p ['d','e','f','a','u','l','t']
  ∧ load_vectorstore isdir loadLocal p none =
      (if isdir (save_vectorstore p none) then
        (loadLocal (save_vectorstore p none)).map some
      else Except.ok none) :=
  ⟨rfl, rfl⟩
